import Mathlib

/-!
Verification development for the Image-Finder mouse/keyboard automation core
(src/auto_mouse_keyboard_finder_v5_actions_ui_perfect.py).

The Python program is shallowly embedded: dynamic JSON-like values become the
inductive type PyVal, stateful methods become pure transition functions on
explicit state records, real-time chunked sleeps become a discrete clock in
milliseconds advanced in poll-sized steps, and code that can raise a Python
exception returns Except (the error string names the exception).
-/

/-!  ## Dynamic values -/

mutual

/-- Dynamic (JSON-like) Python value, as stored in ActionItem.params and in
saved action files.  Floats and booleans do not occur in the modelled paths. -/
inductive PyVal where
  | vstr (s : String)
  | vint (n : Int)
  | vnone
  | vdict (entries : PyFields)
  | vlist (items : PyItems)
deriving DecidableEq, Repr

/-- The key/value entries of a Python dict, in insertion order. -/
inductive PyFields where
  | fnil
  | fcons (k : String) (v : PyVal) (rest : PyFields)
deriving DecidableEq, Repr

/-- The elements of a Python list. -/
inductive PyItems where
  | inil
  | icons (v : PyVal) (rest : PyItems)
deriving DecidableEq, Repr

end

/-- First-match lookup; dict keys are unique in every dictionary the program
builds, so this models Python dict access faithfully. -/
def PyFields.find? : PyFields → String → Option PyVal
  | .fnil, _ => none
  | .fcons k v rest, key => if k = key then some v else rest.find? key

def PyFields.append : PyFields → PyFields → PyFields
  | .fnil, ys => ys
  | .fcons k v rest, ys => .fcons k v (rest.append ys)

def PyFields.isEmpty : PyFields → Bool
  | .fnil => true
  | .fcons _ _ _ => false

def PyFields.length : PyFields → Nat
  | .fnil => 0
  | .fcons _ _ rest => rest.length + 1

def PyItems.length : PyItems → Nat
  | .inil => 0
  | .icons _ rest => rest.length + 1

def PyItems.isEmpty : PyItems → Bool
  | .inil => true
  | .icons _ _ => false

/-- dict.get(k, default). -/
def fieldsGetD (es : PyFields) (k : String) (d : PyVal) : PyVal :=
  match es.find? k with
  | some v => v
  | none => d

/-- Python truthiness (bool(v)) for the modelled values. -/
def pyFalsy : PyVal → Bool
  | .vstr s => s = ""
  | .vint n => n = 0
  | .vnone => true
  | .vdict es => es.isEmpty
  | .vlist xs => xs.isEmpty

/-- v.get(k, default) on a dynamic value: raises AttributeError when v is not
a dict, exactly as Python does. -/
def pyValGetD (v : PyVal) (k : String) (d : PyVal) : Except String PyVal :=
  match v with
  | .vdict es => .ok (fieldsGetD es k d)
  | _ => .error "AttributeError"

/-- len(v) for the sized values; none models a TypeError. -/
def pyLen? : PyVal → Option Nat
  | .vstr s => some s.length
  | .vdict es => some es.length
  | .vlist xs => some xs.length
  | _ => none

/-!  ## String helpers (Python str semantics over char lists, so that closed
terms evaluate inside the kernel) -/

/-- str.strip() on a char list (ASCII whitespace; the modelled strings use no
exotic whitespace). -/
def stripChars (cs : List Char) : List Char :=
  ((cs.dropWhile Char.isWhitespace).reverse.dropWhile Char.isWhitespace).reverse

/-- str.strip() as used on the text-input values. -/
def pyStrip (s : String) : String :=
  ⟨stripChars s.toList⟩

def digitsVal : List Char → Nat → Option Nat
  | [], acc => some acc
  | c :: rest, acc =>
    if c.isDigit then digitsVal rest (acc * 10 + (c.toNat - '0'.toNat)) else none

def digitsToNat? : List Char → Option Nat
  | [] => none
  | cs => digitsVal cs 0

/-- Python int(s) on a string: surrounding whitespace stripped, optional
sign, then decimal digits; anything else raises ValueError (modelled as
none).  Digit-group underscores and non-ASCII digits are not modelled; no
modelled input uses them. -/
def pyIntOfString (s : String) : Option Int :=
  match stripChars s.toList with
  | [] => none
  | '-' :: rest => (digitsToNat? rest).map (fun n => -(n : Int))
  | '+' :: rest => (digitsToNat? rest).map (fun n => (n : Int))
  | cs => (digitsToNat? cs).map (fun n => (n : Int))

/-- Python int(v) on a dynamic value: ints pass through, strings are parsed
(ValueError on failure), every other value raises TypeError. -/
def pyToInt : PyVal → Except String Int
  | .vint n => .ok n
  | .vstr s =>
    match pyIntOfString s with
    | some n => .ok n
    | none => .error "ValueError"
  | _ => .error "TypeError"

/-- parse_int helper of the source: int(value) with TypeError/ValueError
caught to None. -/
def parse_int (value : String) : Option Int :=
  pyIntOfString value

/-- parse_positive_int helper of the source: parse_int, then reject
negatives. -/
def parse_positive_int (value : String) : Option Int :=
  match parse_int value with
  | none => none
  | some n => if n < 0 then none else some n

/-- text.split on the "+" character. -/
def splitOnPlusAux : List Char → List Char → List (List Char)
  | [], acc => [acc.reverse]
  | c :: rest, acc =>
    if c = '+' then acc.reverse :: splitOnPlusAux rest []
    else splitOnPlusAux rest (c :: acc)

/-- parse_hotkey_sequence helper of the source: split a "+"-delimited
combination into stripped, non-empty key names. -/
def parse_hotkey_sequence (text : String) : List String :=
  if text = "" then []
  else
    ((splitOnPlusAux text.toList []).map (fun cs => (⟨stripChars cs⟩ : String))).filter
      (fun p => p ≠ "")

/-- scope.startswith("Global") for the hotkey-scope strings. -/
def startsWithGlobal (s : String) : Bool :=
  match s.toList with
  | 'G' :: 'l' :: 'o' :: 'b' :: 'a' :: 'l' :: _ => true
  | _ => false

def exceptIsOk {α : Type} : Except String α → Bool
  | .ok _ => true
  | .error _ => false

example : parse_hotkey_sequence "ctrl + alt+t" = ["ctrl", "alt", "t"] := by decide
example : pyIntOfString " -42 " = some (-42) := by decide
example : pyIntOfString "soon" = none := by decide

/-!  ## ActionItem and its serialization -/

/-- One authored step.  action_type and params keep the dynamic typing of the
Python dataclass fields (from_dict stores whatever the file held); delay_ms
is always a true int because from_dict passes it through int(). -/
structure ActionItem where
  action_type : PyVal
  params : PyVal
  delay_ms : Int
deriving DecidableEq, Repr

/-- ActionItem.to_dict. -/
def ActionItem.to_dict (a : ActionItem) : PyVal :=
  .vdict (.fcons "action_type" a.action_type
    (.fcons "params" a.params
      (.fcons "delay_ms" (.vint a.delay_ms) .fnil)))

/-- ActionItem.from_dict: missing action_type defaults to "", falsy params
default to the empty dict, delay_ms goes through int() which raises on
non-numeric values; calling .get on a non-dict record raises
AttributeError. -/
def ActionItem.from_dict (data : PyVal) : Except String ActionItem :=
  match data with
  | .vdict entries =>
    let actionType := fieldsGetD entries "action_type" (.vstr "")
    let params0 := fieldsGetD entries "params" (.vdict .fnil)
    let params := if pyFalsy params0 then PyVal.vdict .fnil else params0
    match pyToInt (fieldsGetD entries "delay_ms" (.vint 0)) with
    | .ok n => .ok ⟨actionType, params, n⟩
    | .error e => .error e
  | _ => .error "AttributeError"

/-!  ## Action catalog -/

/-- One ACTION_DEFINITIONS catalog entry. -/
structure ActionDef where
  requires_position : Bool
  optional_position : Bool
  requires_text : Bool
  uses_delay_as_duration : Bool
  description : String
deriving DecidableEq, Repr

/-- The fixed 8-entry catalog (descriptions abridged to their first words;
no modelled behaviour reads them). -/
def ACTION_DEFINITIONS : List (String × ActionDef) :=
  [("Move to Match", ⟨false, false, false, false, "Move cursor to the matched image center."⟩),
   ("Move to Position", ⟨true, false, false, false, "Move cursor to the specified X,Y coordinates."⟩),
   ("Left Click", ⟨false, true, false, false, "Left click at match center or optional coordinates."⟩),
   ("Right Click", ⟨false, true, false, false, "Right click at match center or optional coordinates."⟩),
   ("Double Click", ⟨false, true, false, false, "Double-click at match center or optional coordinates."⟩),
   ("Type Text", ⟨false, false, true, false, "Type the provided text at the current cursor position."⟩),
   ("Press Key", ⟨false, false, true, false, "Press a key or key combination (e.g. ctrl+alt+t)."⟩),
   ("Wait", ⟨false, false, false, true, "Pause for the specified delay before continuing."⟩)]

/-- ACTION_DEFINITIONS.get(action_name, {}): a missing entry acts as a dict
whose .get calls all return falsy defaults. -/
def actionDefinitionFor (name : String) : ActionDef :=
  match (ACTION_DEFINITIONS.find? (fun e => e.1 == name)).map (fun e => e.2) with
  | some d => d
  | none => ⟨false, false, false, false, ""⟩

def DEFAULT_ACTION_DELAY_MS : Int := 1000

/-!  ## add_action (App.add_action, source lines 987-1036)

The inline validation blocks are split into named helpers so the theorems can
case on them; control flow and messages follow the source. -/

/-- Position validation of add_action (source lines 998-1020). -/
def add_action_position_params (defn : ActionDef) (xt yt : String) :
    Except String PyFields :=
  if defn.requires_position then
    match parse_int xt, parse_int yt with
    | some xv, some yv => .ok (.fcons "x" (.vint xv) (.fcons "y" (.vint yv) .fnil))
    | _, _ => .error "This action requires X and Y coordinates."
  else if defn.optional_position then
    if (xt ≠ "" ∧ yt = "") ∨ (yt ≠ "" ∧ xt = "") then
      .error "Provide both X and Y or leave both empty."
    else if xt ≠ "" ∧ yt ≠ "" then
      match parse_int xt, parse_int yt with
      | some xv, some yv => .ok (.fcons "x" (.vint xv) (.fcons "y" (.vint yv) .fnil))
      | _, _ => .error "Coordinates must be numbers."
    else .ok .fnil
  else .ok .fnil

/-- Text validation of add_action (source lines 1021-1026). -/
def add_action_text_params (defn : ActionDef) (tv : String) :
    Except String PyFields :=
  if defn.requires_text then
    if tv = "" then .error "This action requires text or keys."
    else .ok (.fcons "text" (.vstr tv) .fnil)
  else .ok .fnil

/-- App.add_action: validates the form inputs and either appends one item and
reports success, or leaves the list unchanged and reports the failure.  The
inputs are the raw text-field values; stripping happens here as in the
source.  Result: (new action list, status message). -/
def add_action (action_name delay_text x_text y_text text_value : String)
    (actions : List ActionItem) : List ActionItem × String :=
  match (if pyStrip delay_text = "" then some DEFAULT_ACTION_DELAY_MS
         else parse_positive_int (pyStrip delay_text)) with
  | none => (actions, "Delay must be a number in milliseconds.")
  | some delay0 =>
    match add_action_position_params (actionDefinitionFor action_name)
        (pyStrip x_text) (pyStrip y_text) with
    | .error m => (actions, m)
    | .ok posParams =>
      match add_action_text_params (actionDefinitionFor action_name)
          (pyStrip text_value) with
      | .error m => (actions, m)
      | .ok textParams =>
        if action_name = "Wait" then
          if delay0 ≤ 0 then (actions, "Set a delay (ms) for the Wait action.")
          else
            (actions ++ [⟨.vstr action_name,
              .vdict ((posParams.append textParams).append
                (.fcons "duration_ms" (.vint delay0) .fnil)), 0⟩],
              "Added action " ++ action_name ++ ".")
        else
          (actions ++ [⟨.vstr action_name,
            .vdict (posParams.append textParams), delay0⟩],
            "Added action " ++ action_name ++ ".")

/-!  ## Loading a saved sequence (App.load_actions, JSON branch,
source lines 1107-1134) -/

/-- The for loop over payload["actions"]: each record goes through
ActionItem.from_dict, and the first exception aborts the whole load; no
record is skipped. -/
def load_records : PyItems → Except String (List ActionItem)
  | .inil => .ok []
  | .icons item rest =>
    match ActionItem.from_dict item with
    | .error e => .error e
    | .ok a =>
      match load_records rest with
      | .error e => .error e
      | .ok tl => .ok (a :: tl)

/-- The region field: skipped when falsy or when len is not 4; a four-element
list is converted entrywise through int().  A truthy non-sized value raises
TypeError at len(); a 4-character string or 4-key dict feeds non-numeric
strings to int() and raises (numeric-string dict keys are not modelled). -/
def load_region (v : PyVal) : Except String (Option (Int × Int × Int × Int)) :=
  if pyFalsy v then .ok none
  else
    match pyLen? v with
    | none => .error "TypeError"
    | some n =>
      if n = 4 then
        match v with
        | .vlist (.icons a (.icons b (.icons c (.icons d .inil)))) =>
          match pyToInt a with
          | .error e => .error e
          | .ok x =>
            match pyToInt b with
            | .error e => .error e
            | .ok y =>
              match pyToInt c with
              | .error e => .error e
              | .ok w =>
                match pyToInt d with
                | .error e => .error e
                | .ok h => .ok (some (x, y, w, h))
        | _ => .error "ValueError"
      else .ok none

/-- The similarity field: only an absent/None value is skipped; anything else
goes through int() and is clamped by the slider to [50, 100]. -/
def load_similarity (v : PyVal) : Except String (Option Int) :=
  match v with
  | .vnone => .ok none
  | w =>
    match pyToInt w with
    | .error e => .error e
    | .ok n => .ok (some (max 50 (min 100 n)))

/-- Everything the JSON load produces on success. -/
structure LoadedPayload where
  actions : List ActionItem
  region : Option (Int × Int × Int × Int)
  similarity : Option Int
deriving DecidableEq, Repr

/-- The try block of App.load_actions for a parsed JSON payload: actions
first, then region, then similarity; the first exception aborts everything.
A non-dict payload raises at payload.get; a non-list actions value fails
during iteration for the modelled values (an empty-dict actions value, which
Python would iterate as zero keys, is not modelled). -/
def load_actions_json (payload : PyVal) : Except String LoadedPayload :=
  match payload with
  | .vdict entries =>
    match fieldsGetD entries "actions" (.vlist .inil) with
    | .vlist items =>
      match load_records items with
      | .error e => .error e
      | .ok acts =>
        match load_region (fieldsGetD entries "region" .vnone) with
        | .error e => .error e
        | .ok r =>
          match load_similarity (fieldsGetD entries "similarity" .vnone) with
          | .error e => .error e
          | .ok sim => .ok ⟨acts, r, sim⟩
    | _ => .error "TypeError"
  | _ => .error "AttributeError"

/-- The effect of App.load_actions on self.actions: replaced on success,
untouched when the load raises (the except branch only sets a status). -/
def apply_load (payload : PyVal) (current : List ActionItem) : List ActionItem :=
  match load_actions_json payload with
  | .ok lp => lp.actions
  | .error _ => current

/-!  ## Detection (App.perform_detection_cycle, source lines 1282-1299)

The capture and template-matching collaborators are black boxes, so the cycle
takes their outputs as inputs: the capture offset, the best score (a float,
modelled as a rational), the best-location top-left, and the reference-image
width and height from target_image_cv.shape. -/

inductive DetectResult where
  | matched (center : Int × Int) (score : ℚ)
  | noMatch (score : ℚ)
deriving DecidableEq, Repr

def DetectResult.isMatched : DetectResult → Bool
  | .matched _ _ => true
  | .noMatch _ => false

/-- The classify-and-locate tail of perform_detection_cycle: Match iff
max_val >= threshold, center = offset + max_loc + size // 2 per axis. -/
def perform_detection_cycle (offset : Int × Int) (max_val : ℚ)
    (max_loc : Int × Int) (tmpl_w tmpl_h : Nat) (threshold : ℚ) : DetectResult :=
  if max_val ≥ threshold then
    .matched (offset.1 + max_loc.1 + (tmpl_w / 2 : Nat),
              offset.2 + max_loc.2 + (tmpl_h / 2 : Nat)) max_val
  else
    .noMatch max_val

/-!  ## Action executor (App.execute_actions / App.perform_action,
source lines 1320-1390)

Time is a millisecond clock; the cancellation token is the optional absolute
time at which stop_event becomes set (none = never).  The chunked sleep
loops of the source (while time < end: check stop; sleep 0.01) become
sleepChunks, advancing the clock POLL_INTERVAL_MS per iteration; the fuel
argument (one unit per millisecond) strictly bounds the iteration count. -/

def POLL_INTERVAL_MS : Nat := 10

/-- stop_event.is_set() at clock time t. -/
def cancelledAt (c : Option Nat) (t : Nat) : Bool :=
  match c with
  | some ct => ct ≤ t
  | none => false

def sleepChunks : Nat → Nat → Nat → Option Nat → Nat
  | 0, t, _, _ => t
  | fuel + 1, t, endT, c =>
    if t < endT then
      if cancelledAt c t then t else sleepChunks fuel (t + POLL_INTERVAL_MS) endT c
    else t

/-- The interruptible sleep of the source: poll the stop event every
POLL_INTERVAL_MS until the end time (or cancellation). -/
def interruptible_sleep (t endT : Nat) (c : Option Nat) : Nat :=
  sleepChunks (endT - t) t endT c

/-- One injected input event (the pyautogui collaborator calls). -/
inductive Event where
  | moveTo (x y : Int)
  | click (x y : Int) (button : String)
  | doubleClick (x y : Int)
  | typeText (s : String)
  | pressKey (k : String)
  | hotkeyChord (keys : List String)
deriving DecidableEq, Repr

/-- params.get("x") / ("y") followed by the isinstance-str reparse: ints pass
through, strings go through parse_int, absent/None give none (other object
types, which pyautogui would reject later, are modelled as absent). -/
def coerceCoord : Option PyVal → Option Int
  | some (.vint n) => some n
  | some (.vstr s) => parse_int s
  | _ => none

/-- App.perform_action: dispatch one non-Wait step to the injection
collaborator, resolving the target from explicit params or the match
center.  Errors model the Python exceptions the method can raise. -/
def perform_action (a : ActionItem) (match_center : Int × Int) :
    Except String (List Event) :=
  let params := if pyFalsy a.params then PyVal.vdict .fnil else a.params
  match params with
  | .vdict es =>
    let x := coerceCoord (es.find? "x")
    let y := coerceCoord (es.find? "y")
    if a.action_type = .vstr "Move to Match" then
      .ok [.moveTo match_center.1 match_center.2]
    else if a.action_type = .vstr "Move to Position" then
      match x, y with
      | some xv, some yv => .ok [.moveTo xv yv]
      | _, _ => .error "Move to Position requires coordinates."
    else if a.action_type = .vstr "Left Click" then
      match x, y with
      | some xv, some yv => .ok [.click xv yv "left"]
      | _, _ => .ok [.click match_center.1 match_center.2 "left"]
    else if a.action_type = .vstr "Right Click" then
      match x, y with
      | some xv, some yv => .ok [.click xv yv "right"]
      | _, _ => .ok [.click match_center.1 match_center.2 "right"]
    else if a.action_type = .vstr "Double Click" then
      match x, y with
      | some xv, some yv => .ok [.doubleClick xv yv]
      | _, _ => .ok [.doubleClick match_center.1 match_center.2]
    else if a.action_type = .vstr "Type Text" then
      match fieldsGetD es "text" (.vstr "") with
      | .vstr s => if s = "" then .ok [] else .ok [.typeText s]
      | _ => .ok []
    else if a.action_type = .vstr "Press Key" then
      match fieldsGetD es "text" (.vstr "") with
      | .vstr s =>
        match parse_hotkey_sequence s with
        | [] => .ok []
        | [k] => .ok [.pressKey k]
        | ks => .ok [.hotkeyChord ks]
      | _ => .error "AttributeError"
    else .ok []
  | _ => .error "AttributeError"

/-- One iteration body of the execute_actions for loop: a Wait item performs
only the interruptible sleep of its duration (params.get("duration_ms",
delay_ms), compared > 0, raising TypeError on a non-int); any other item
dispatches through perform_action and then performs the interruptible
post-action delay when delay_ms > 0. -/
def execStep (a : ActionItem) (mc : Int × Int) (t : Nat) (c : Option Nat) :
    Except String (List Event × Nat) :=
  if a.action_type = .vstr "Wait" then
    match pyValGetD a.params "duration_ms" (.vint a.delay_ms) with
    | .error e => .error e
    | .ok dur =>
      match dur with
      | .vint n =>
        if 0 < n then .ok ([], interruptible_sleep t (t + n.toNat) c)
        else .ok ([], t)
      | _ => .error "TypeError"
  else
    match perform_action a mc with
    | .error e => .error e
    | .ok evs =>
      if 0 < a.delay_ms then .ok (evs, interruptible_sleep t (t + a.delay_ms.toNat) c)
      else .ok (evs, t)

/-- Result of one execute_actions run: the items whose step was started, the
injected events, the final clock, and the error that broke the loop (if
any). -/
structure ExecOutcome where
  steps : List ActionItem
  events : List Event
  time : Nat
  err : Option String
deriving DecidableEq, Repr

/-- App.execute_actions: iterate the sequence in order, checking the stop
event before starting each step; a step exception sets a status and breaks,
leaving the remaining steps unexecuted. -/
def execute_actions : List ActionItem → (Int × Int) → Nat → Option Nat → ExecOutcome
  | [], _, t, _ => ⟨[], [], t, none⟩
  | a :: rest, mc, t, c =>
    if cancelledAt c t then ⟨[], [], t, none⟩
    else
      match execStep a mc t c with
      | .error e => ⟨[a], [], t, some e⟩
      | .ok (evs, t1) =>
        let o := execute_actions rest mc t1 c
        ⟨a :: o.steps, evs ++ o.events, o.time, o.err⟩

/-!  ## Automation scheduler (App.start_automation / App.stop_automation /
App.automation_loop, source lines 1225-1280) -/

/-- The scheduler-relevant slice of App state.  thread_alive models
automation_thread is not None and automation_thread.is_alive(); the has_*
fields model the optional imports and the pasted target image. -/
structure SchedState where
  automation_running : Bool
  stop_event : Bool
  thread_alive : Bool
  status_message : String
  has_pyautogui : Bool
  has_cv2 : Bool
  has_np : Bool
  has_target_image : Bool
deriving DecidableEq, Repr

/-- App.start_automation: a silent no-op while automation_running; otherwise
dependency checks, then clear the stop event, set the run flag, publish the
status, and spawn exactly one worker (the returned Bool). -/
def start_automation (s : SchedState) : SchedState × Bool :=
  if s.automation_running then (s, false)
  else
    let missing :=
      (if s.has_pyautogui then [] else ["pyautogui"]) ++
      (if s.has_cv2 then [] else ["opencv-python"]) ++
      (if s.has_np then [] else ["numpy"])
    if missing ≠ [] then
      ({ s with status_message :=
          "Install required packages: " ++ String.intercalate ", " missing }, false)
    else if s.has_target_image = false then
      ({ s with status_message := "Paste a target image first." }, false)
    else
      ({ s with stop_event := false,
                automation_running := true,
                status_message := "Automation running...",
                thread_alive := true }, true)

/-- App.stop_automation: set the stop event when a worker thread is alive;
the join performed when wait=True blocks but reads and writes no modelled
state; then clear the run flag unconditionally, and report the stopped
status only when waiting. -/
def stop_automation (s : SchedState) (wait : Bool) : SchedState :=
  let s1 := if s.thread_alive then { s with stop_event := true } else s
  let s2 := { s1 with automation_running := false }
  if wait then { s2 with status_message := "Automation stopped." } else s2

/-- The finally block of App.automation_loop: the worker clears the run flag
on exit (and its thread dies). -/
def worker_finalize (s : SchedState) : SchedState :=
  { s with automation_running := false, thread_alive := false }

/-!  ## Hotkey scope (App.on_hotkey_scope_change /
App.register_global_hotkeys / App.unregister_global_hotkeys,
source lines 933-976) -/

/-- The hotkey-relevant slice of App state plus a ghost log of the
remove_hotkey collaborator calls.  add_hotkey_fails is the oracle for the
try/except around keyboard.add_hotkey (a failure between the two add calls
is not modelled separately). -/
structure HotkeyState where
  keyboard_available : Bool
  add_hotkey_fails : Bool
  next_handle : Nat
  global_hotkey_handles : List Nat
  hotkey_scope : String
  status_message : String
  unregister_calls : List Nat
deriving DecidableEq, Repr

/-- App.unregister_global_hotkeys: with the keyboard module present, invoke
remove_hotkey on every tracked handle (individual failures are swallowed by
the inner try, so each call is still made) and empty the handle list; a
missing module returns immediately. -/
def unregister_global_hotkeys (s : HotkeyState) : HotkeyState :=
  if s.keyboard_available then
    { s with unregister_calls := s.unregister_calls ++ s.global_hotkey_handles,
             global_hotkey_handles := [] }
  else s

/-- App.register_global_hotkeys: without the module, report and revert the
scope; otherwise unregister first, then register the two bindings (fresh
handles from a counter) or, when add_hotkey raises, clear the handle list,
report, and revert the scope. -/
def register_global_hotkeys (s : HotkeyState) : HotkeyState :=
  if s.keyboard_available = false then
    { s with status_message := "Install keyboard package to enable global hotkeys.",
             hotkey_scope := "Focused (in app)" }
  else
    let s1 := unregister_global_hotkeys s
    if s1.add_hotkey_fails then
      { s1 with global_hotkey_handles := [],
                status_message := "Global hotkey error.",
                hotkey_scope := "Focused (in app)" }
    else
      { s1 with global_hotkey_handles := [s1.next_handle, s1.next_handle + 1],
                next_handle := s1.next_handle + 2,
                status_message := "Global hotkeys enabled." }

/-- App.on_hotkey_scope_change: record the scope, then register for Global
or unregister (with status) for any other scope. -/
def on_hotkey_scope_change (s : HotkeyState) (scope : String) : HotkeyState :=
  let s0 := { s with hotkey_scope := scope }
  if startsWithGlobal scope then register_global_hotkeys s0
  else { unregister_global_hotkeys s0 with
           status_message := "Hotkeys limited to app window." }

deriving instance DecidableEq for Except

/-!  ## Claim theorems -/

/-- C1: in every scheduler state with automation_running true, a call to
start_automation returns immediately: no worker thread is spawned (the Bool
is false) and the state is unmodified, so a second start while running can
never produce a second worker loop. -/
theorem start_automation_running_noop (s : SchedState)
    (h : s.automation_running = true) :
    start_automation s = (s, false) := by
  simp [start_automation, h]

theorem start_automation_running_noop_witness :
    start_automation ⟨true, false, true, "Automation running...", true, true, true, true⟩ =
      (⟨true, false, true, "Automation running...", true, true, true, true⟩, false) :=
  start_automation_running_noop _ rfl

/-- C3: one detection cycle classifies Match exactly when the best score is
at least the configured threshold, and the boundary case score = threshold
is classified as a Match. -/
theorem detection_match_iff_threshold :
    ∀ (offset : Int × Int) (score : ℚ) (loc : Int × Int) (w h : Nat) (t : ℚ),
      ((perform_detection_cycle offset score loc w h t).isMatched = true ↔ t ≤ score)
      ∧ (perform_detection_cycle offset t loc w h t).isMatched = true := by
  intro offset score loc w h t
  constructor
  · unfold perform_detection_cycle
    split <;> simp_all [DetectResult.isMatched, ge_iff_le]
  · simp [perform_detection_cycle, DetectResult.isMatched, ge_iff_le, le_refl]

/-- C4: every match reports center = offset + best location + reference
size / 2, computed per axis with integer floor division. -/
theorem match_center_formula (offset : Int × Int) (score : ℚ) (loc : Int × Int)
    (w h : Nat) (t : ℚ) (hm : t ≤ score) :
    perform_detection_cycle offset score loc w h t =
      .matched (offset.1 + loc.1 + (w / 2 : Nat), offset.2 + loc.2 + (h / 2 : Nat))
        score := by
  simp [perform_detection_cycle, ge_iff_le, hm]

/-- C4 witness: a 40 by 30 reference matched at top-left (200, 150) under
offset (0, 0) reports center (220, 165). -/
theorem match_center_formula_witness :
    perform_detection_cycle (0, 0) 1 (200, 150) 40 30 (4 / 5) =
      .matched (220, 165) 1 := by
  have h := match_center_formula (0, 0) 1 (200, 150) 40 30 (4 / 5) (by norm_num)
  norm_num at h
  exact h

/-- C5 counterexample: from a state with a live worker and the run flag set,
stop_automation with wait=False itself returns with automation_running
already cleared — the transition is not left to the worker, contradicting
the claim that the stop call does not clear the running flag. -/
theorem stop_no_wait_clears_run_flag_cex :
    (⟨true, false, true, "Automation running...", true, true, true,
        true⟩ : SchedState).automation_running = true
    ∧ (stop_automation
        ⟨true, false, true, "Automation running...", true, true, true, true⟩
        false).automation_running = false :=
  ⟨rfl, rfl⟩

/-- C5 amended: stop with wait=False sets the cancellation flag when a worker
thread is alive and returns immediately (no status change), but it clears
the running flag itself, synchronously; the worker additionally clears the
flag in its finally block. -/
theorem stop_no_wait_behavior (s : SchedState) (h : s.thread_alive = true) :
    (stop_automation s false).stop_event = true
    ∧ (stop_automation s false).automation_running = false
    ∧ (stop_automation s false).status_message = s.status_message
    ∧ (worker_finalize s).automation_running = false := by
  simp [stop_automation, worker_finalize, h]

theorem stop_no_wait_behavior_witness :
    (stop_automation ⟨true, false, true, "run", true, true, true, true⟩
        false).stop_event = true
    ∧ (stop_automation ⟨true, false, true, "run", true, true, true, true⟩
        false).automation_running = false
    ∧ (stop_automation ⟨true, false, true, "run", true, true, true, true⟩
        false).status_message =
      (⟨true, false, true, "run", true, true, true, true⟩ : SchedState).status_message
    ∧ (worker_finalize
        ⟨true, false, true, "run", true, true, true, true⟩).automation_running = false :=
  stop_no_wait_behavior _ rfl

/-- C7: for every ActionItem whose params field is a mapping (as the data
model requires), deserializing the serialized record gives back the item
field for field. -/
theorem action_item_roundtrip (a : ActionItem) (m : PyFields)
    (hp : a.params = .vdict m) :
    ActionItem.from_dict (ActionItem.to_dict a) = .ok a := by
  obtain ⟨at0, p0, d0⟩ := a
  simp only at hp
  subst hp
  cases m <;> rfl

theorem action_item_roundtrip_witness :
    ActionItem.from_dict (ActionItem.to_dict
        ⟨.vstr "Wait", .vdict (.fcons "duration_ms" (.vint 500) .fnil), 0⟩) =
      .ok ⟨.vstr "Wait", .vdict (.fcons "duration_ms" (.vint 500) .fnil), 0⟩ :=
  action_item_roundtrip _ (.fcons "duration_ms" (.vint 500) .fnil) rfl

/-- A cancellation observed during a chunked sleep ends it within one poll
interval of the request time, for any fuel. -/
lemma sleepChunks_cancel_latency (fuel : Nat) :
    ∀ (t endT ct : Nat),
      sleepChunks fuel t endT (some ct) ≤ max t (ct + POLL_INTERVAL_MS) := by
  induction fuel with
  | zero => intro t endT ct; simp [sleepChunks]
  | succ fuel ih =>
    intro t endT ct
    unfold sleepChunks
    split
    · split
      · exact le_max_left _ _
      · rename_i hlt hc
        have hct : t < ct := by
          simp [cancelledAt] at hc
          omega
        refine (ih (t + POLL_INTERVAL_MS) endT ct).trans ?_
        have hmax : max (t + POLL_INTERVAL_MS) (ct + POLL_INTERVAL_MS) =
            ct + POLL_INTERVAL_MS := by omega
        rw [hmax]
        exact le_max_right _ _
    · exact le_max_left _ _

/-- A stop event already set when execute_actions starts (or reached at a
step boundary) executes nothing further. -/
lemma execute_actions_cancelled (acts : List ActionItem) (mc : Int × Int)
    (t : Nat) (c : Option Nat) (h : cancelledAt c t = true) :
    execute_actions acts mc t c = ⟨[], [], t, none⟩ := by
  cases acts <;> simp [execute_actions, h]

/-- C2: execute_actions checks the stop event before starting each step — if
it is already set, execution stops at once with no step started and the
clock unmoved — and every Wait duration and post-action delay is performed
as repeated waits of POLL_INTERVAL_MS = 10 ms (at most 20 ms) with a
cancellation check between them, so a cancellation during a sleep ends it
within one poll interval of the request; concretely, a Wait of 500 ms
cancelled at t = 100 ms returns at t = 100 ms, and a cancellation at
t = 50 ms inside the first post-action delay of a two-click sequence leaves
the second click unexecuted. -/
theorem execute_actions_cancellation_prompt :
    (∀ (acts : List ActionItem) (mc : Int × Int) (t : Nat) (c : Option Nat),
        cancelledAt c t = true → execute_actions acts mc t c = ⟨[], [], t, none⟩)
    ∧ POLL_INTERVAL_MS ≤ 20
    ∧ (∀ (t endT ct : Nat),
        interruptible_sleep t endT (some ct) ≤ max t (ct + POLL_INTERVAL_MS))
    ∧ execute_actions
        [⟨.vstr "Wait", .vdict (.fcons "duration_ms" (.vint 500) .fnil), 0⟩]
        (0, 0) 0 (some 100) =
      ⟨[⟨.vstr "Wait", .vdict (.fcons "duration_ms" (.vint 500) .fnil), 0⟩],
        [], 100, none⟩
    ∧ execute_actions
        [⟨.vstr "Left Click", .vdict .fnil, 100⟩,
          ⟨.vstr "Left Click", .vdict .fnil, 100⟩]
        (5, 6) 0 (some 50) =
      ⟨[⟨.vstr "Left Click", .vdict .fnil, 100⟩], [.click 5 6 "left"], 50, none⟩ := by
  refine ⟨execute_actions_cancelled, by decide, ?_, by decide, by decide⟩
  intro t endT ct
  exact sleepChunks_cancel_latency _ _ _ _

theorem execute_actions_cancellation_prompt_witness :
    execute_actions [⟨.vstr "Wait", .vdict .fnil, 0⟩] (0, 0) 77 (some 40) =
      ⟨[], [], 77, none⟩ :=
  execute_actions_cancellation_prompt.1 _ _ _ _ (by decide)

/-- C6 counterexample: a file whose actions list holds one well-formed record
followed by one malformed record (delay_ms = "soon", so int() raises
ValueError) makes the whole load fail — the well-formed record is not
returned and the previous in-memory list is kept — contradicting the claim
that a malformed individual record is skipped while the load succeeds. -/
theorem load_malformed_record_not_skipped_cex :
    ActionItem.from_dict (.vdict (.fcons "action_type" (.vstr "Left Click")
        (.fcons "params" (.vdict .fnil) (.fcons "delay_ms" (.vint 1000) .fnil)))) =
      .ok ⟨.vstr "Left Click", .vdict .fnil, 1000⟩
    ∧ exceptIsOk (load_actions_json (.vdict (.fcons "actions" (.vlist
        (.icons (.vdict (.fcons "action_type" (.vstr "Left Click")
          (.fcons "params" (.vdict .fnil) (.fcons "delay_ms" (.vint 1000) .fnil))))
        (.icons (.vdict (.fcons "action_type" (.vstr "Wait")
          (.fcons "delay_ms" (.vstr "soon") .fnil)))
        .inil))) .fnil))) = false
    ∧ apply_load (.vdict (.fcons "actions" (.vlist
        (.icons (.vdict (.fcons "action_type" (.vstr "Left Click")
          (.fcons "params" (.vdict .fnil) (.fcons "delay_ms" (.vint 1000) .fnil))))
        (.icons (.vdict (.fcons "action_type" (.vstr "Wait")
          (.fcons "delay_ms" (.vstr "soon") .fnil)))
        .inil))) .fnil))
        [⟨.vstr "Old", .vdict .fnil, 0⟩] = [⟨.vstr "Old", .vdict .fnil, 0⟩] :=
  ⟨rfl, by decide, rfl⟩

/-- C6 amended: on load, missing or falsy optional fields of a record default
to empty-map/zero, but a record that makes from_dict raise (or any other
exception in the load) aborts the whole load with the previous action list
untouched; no individual record is skipped. -/
theorem load_failure_keeps_actions (payload : PyVal) (current : List ActionItem)
    (h : exceptIsOk (load_actions_json payload) = false) :
    apply_load payload current = current
    ∧ ActionItem.from_dict (.vdict .fnil) = .ok ⟨.vstr "", .vdict .fnil, 0⟩
    ∧ ActionItem.from_dict
        (.vdict (.fcons "params" .vnone (.fcons "delay_ms" (.vint 5) .fnil))) =
      .ok ⟨.vstr "", .vdict .fnil, 5⟩ := by
  refine ⟨?_, rfl, rfl⟩
  cases hl : load_actions_json payload with
  | ok lp => simp [exceptIsOk, hl] at h
  | error e => simp [apply_load, hl]

theorem load_failure_keeps_actions_witness :
    apply_load (.vint 3) [⟨.vstr "", .vdict .fnil, 0⟩] =
      [⟨.vstr "", .vdict .fnil, 0⟩] :=
  (load_failure_keeps_actions (.vint 3) [⟨.vstr "", .vdict .fnil, 0⟩] (by decide)).1

/-- C9: switching the hotkey scope to anything not starting with "Global"
empties the global handle list before returning, and remove_hotkey is
invoked for every previously tracked handle (ghost log).  The side
hypothesis — a non-empty handle list implies the keyboard module is present
— holds in every reachable state because handles are only ever created by
register_global_hotkeys, which requires the module. -/
theorem scope_change_unregisters_all (s : HotkeyState) (scope : String)
    (hs : startsWithGlobal scope = false)
    (hreach : s.global_hotkey_handles = [] ∨ s.keyboard_available = true) :
    (on_hotkey_scope_change s scope).global_hotkey_handles = []
    ∧ (on_hotkey_scope_change s scope).unregister_calls =
        s.unregister_calls ++ s.global_hotkey_handles := by
  unfold on_hotkey_scope_change
  rcases hreach with h | h
  · cases hk : s.keyboard_available <;>
      simp [hs, unregister_global_hotkeys, hk, h]
  · simp [hs, unregister_global_hotkeys, h]

theorem scope_change_unregisters_all_witness :
    (on_hotkey_scope_change
        ⟨true, false, 2, [7, 8], "Global", "Global hotkeys enabled.", []⟩
        "Focused (in app)").global_hotkey_handles = []
    ∧ (on_hotkey_scope_change
        ⟨true, false, 2, [7, 8], "Global", "Global hotkeys enabled.", []⟩
        "Focused (in app)").unregister_calls = [] ++ [7, 8] :=
  scope_change_unregisters_all _ _ (by decide) (Or.inr rfl)

lemma parse_positive_int_nonneg {s : String} {n : Int}
    (h : parse_positive_int s = some n) : 0 ≤ n := by
  unfold parse_positive_int at h
  cases hp : parse_int s with
  | none => rw [hp] at h; cases h
  | some m =>
    rw [hp] at h
    by_cases hm : m < 0
    · simp [hm] at h
    · simp [hm] at h
      omega

lemma delay_parse_nonneg {s : String} {n : Int}
    (h : (if pyStrip s = "" then some DEFAULT_ACTION_DELAY_MS
          else parse_positive_int (pyStrip s)) = some n) : 0 ≤ n := by
  split at h
  · simp [DEFAULT_ACTION_DELAY_MS] at h
    omega
  · exact parse_positive_int_nonneg h

lemma position_params_shape {defn : ActionDef} {xt yt : String} {ps : PyFields}
    (h : add_action_position_params defn xt yt = .ok ps) :
    ps = .fnil
    ∨ ∃ xv yv : Int, ps = .fcons "x" (.vint xv) (.fcons "y" (.vint yv) .fnil) := by
  unfold add_action_position_params at h
  split at h
  · split at h
    · rename_i xv yv hx hy
      injection h with h
      exact Or.inr ⟨xv, yv, h.symm⟩
    · exact Except.noConfusion h
  · split at h
    · split at h
      · exact Except.noConfusion h
      · split at h
        · split at h
          · rename_i xv yv hx hy
            injection h with h
            exact Or.inr ⟨xv, yv, h.symm⟩
          · exact Except.noConfusion h
        · injection h with h
          exact Or.inl h.symm
    · injection h with h
      exact Or.inl h.symm

lemma position_params_requires {defn : ActionDef} {xt yt : String} {ps : PyFields}
    (hreq : defn.requires_position = true)
    (h : add_action_position_params defn xt yt = .ok ps) :
    ∃ xv yv : Int, ps = .fcons "x" (.vint xv) (.fcons "y" (.vint yv) .fnil) := by
  unfold add_action_position_params at h
  rw [hreq] at h
  simp only [if_true] at h
  split at h
  · rename_i xv yv hx hy
    injection h with h
    exact ⟨xv, yv, h.symm⟩
  · exact Except.noConfusion h

lemma position_params_error_msg {defn : ActionDef} {xt yt : String} {m : String}
    (h : add_action_position_params defn xt yt = .error m) : m ≠ "" := by
  unfold add_action_position_params at h
  split at h
  · split at h
    · exact Except.noConfusion h
    · injection h with h
      subst h
      decide
  · split at h
    · split at h
      · injection h with h
        subst h
        decide
      · split at h
        · split at h
          · exact Except.noConfusion h
          · injection h with h
            subst h
            decide
        · exact Except.noConfusion h
    · exact Except.noConfusion h

lemma text_params_shape {defn : ActionDef} {tv : String} {ps : PyFields}
    (h : add_action_text_params defn tv = .ok ps) :
    ps = .fnil ∨ ∃ s : String, s ≠ "" ∧ ps = .fcons "text" (.vstr s) .fnil := by
  unfold add_action_text_params at h
  split at h
  · split at h
    · exact Except.noConfusion h
    · rename_i hne
      injection h with h
      exact Or.inr ⟨tv, hne, h.symm⟩
  · injection h with h
    exact Or.inl h.symm

lemma text_params_requires {defn : ActionDef} {tv : String} {ps : PyFields}
    (hreq : defn.requires_text = true)
    (h : add_action_text_params defn tv = .ok ps) :
    ∃ s : String, s ≠ "" ∧ ps = .fcons "text" (.vstr s) .fnil := by
  unfold add_action_text_params at h
  rw [hreq] at h
  simp only [if_true] at h
  split at h
  · exact Except.noConfusion h
  · rename_i hne
    injection h with h
    exact ⟨tv, hne, h.symm⟩

lemma text_params_error_msg {defn : ActionDef} {tv : String} {m : String}
    (h : add_action_text_params defn tv = .error m) : m ≠ "" := by
  unfold add_action_text_params at h
  split at h
  · split at h
    · injection h with h
      subst h
      decide
    · exact Except.noConfusion h
  · exact Except.noConfusion h

/-- C8: every item appended by add_action satisfies the data-model
invariants — an appended Wait item carries a positive duration_ms and
delay_ms = 0, a Move to Position item carries both x and y, a Type
Text/Press Key item carries non-empty text, and the post-action delay is
never negative — and whenever validation fails, add_action reports a
non-empty status message and leaves the action sequence unchanged. -/
theorem add_action_validates :
    ∀ (name delayText xText yText textValue : String) (acts : List ActionItem),
      (∃ m, add_action name delayText xText yText textValue acts = (acts, m) ∧ m ≠ "")
      ∨ (∃ (ps : PyFields) (delay : Int) (msg : String),
          add_action name delayText xText yText textValue acts =
            (acts ++ [⟨.vstr name, .vdict ps, delay⟩], msg)
          ∧ 0 ≤ delay
          ∧ (name = "Wait" → delay = 0 ∧
              ∃ d : Int, 0 < d ∧ ps.find? "duration_ms" = some (.vint d))
          ∧ (name = "Move to Position" →
              (∃ xv : Int, ps.find? "x" = some (.vint xv))
              ∧ (∃ yv : Int, ps.find? "y" = some (.vint yv)))
          ∧ ((name = "Type Text" ∨ name = "Press Key") →
              ∃ s : String, ps.find? "text" = some (.vstr s) ∧ s ≠ "")) := by
  intro name dT xT yT tv acts
  rcases hdel : (if pyStrip dT = "" then some DEFAULT_ACTION_DELAY_MS
      else parse_positive_int (pyStrip dT)) with _ | delay0
  · refine Or.inl ⟨"Delay must be a number in milliseconds.", ?_, by decide⟩
    unfold add_action
    rw [hdel]
  · have hd0 : 0 ≤ delay0 := delay_parse_nonneg hdel
    rcases hpos : add_action_position_params (actionDefinitionFor name)
        (pyStrip xT) (pyStrip yT) with m | posParams
    · refine Or.inl ⟨m, ?_, position_params_error_msg hpos⟩
      unfold add_action
      rw [hdel, hpos]
    · rcases htext : add_action_text_params (actionDefinitionFor name)
          (pyStrip tv) with m | textParams
      · refine Or.inl ⟨m, ?_, text_params_error_msg htext⟩
        unfold add_action
        rw [hdel, hpos, htext]
      · by_cases hw : name = "Wait"
        · subst hw
          by_cases hle : delay0 ≤ 0
          · refine Or.inl ⟨"Set a delay (ms) for the Wait action.", ?_, by decide⟩
            unfold add_action
            simp [hdel, hpos, htext, hle]
          · refine Or.inr ⟨(posParams.append textParams).append
                (.fcons "duration_ms" (.vint delay0) .fnil), 0,
                "Added action " ++ "Wait" ++ ".", ?_, le_refl 0,
                fun _ => ⟨rfl, delay0, by omega, ?_⟩, ?_, ?_⟩
            · unfold add_action
              simp [hdel, hpos, htext, hle]
            · rcases position_params_shape hpos with h1 | ⟨xv, yv, h1⟩ <;>
                rcases text_params_shape htext with h2 | ⟨s, hs, h2⟩ <;>
                  subst h1 <;> subst h2 <;>
                    simp [PyFields.append, PyFields.find?]
            · intro hmp
              exact absurd hmp (by decide)
            · intro hty
              rcases hty with h | h <;> exact absurd h (by decide)
        · refine Or.inr ⟨posParams.append textParams, delay0,
              "Added action " ++ name ++ ".", ?_, hd0,
              fun hWait => absurd hWait hw, ?_, ?_⟩
          · unfold add_action
            simp [hdel, hpos, htext, hw]
          · intro hmp
            subst hmp
            have hreq : (actionDefinitionFor "Move to Position").requires_position = true := by
              decide
            obtain ⟨xv, yv, hps⟩ := position_params_requires hreq hpos
            subst hps
            rcases text_params_shape htext with h2 | ⟨s, hs, h2⟩ <;> subst h2 <;>
              exact ⟨⟨xv, by simp [PyFields.append, PyFields.find?]⟩,
                     ⟨yv, by simp [PyFields.append, PyFields.find?]⟩⟩
          · intro hty
            have hreq : (actionDefinitionFor name).requires_text = true := by
              rcases hty with h | h <;> rw [h] <;> decide
            obtain ⟨s, hs, hts⟩ := text_params_requires hreq htext
            subst hts
            rcases position_params_shape hpos with h1 | ⟨xv, yv, h1⟩ <;> subst h1 <;>
              exact ⟨s, by simp [PyFields.append, PyFields.find?], hs⟩

theorem add_action_validates_witness :
    (∃ m, add_action "Wait" "250" "" "" "" [] = ([], m) ∧ m ≠ "")
    ∨ (∃ (ps : PyFields) (delay : Int) (msg : String),
        add_action "Wait" "250" "" "" "" [] =
          ([] ++ [⟨.vstr "Wait", .vdict ps, delay⟩], msg)
        ∧ 0 ≤ delay
        ∧ ("Wait" = "Wait" → delay = 0 ∧
            ∃ d : Int, 0 < d ∧ ps.find? "duration_ms" = some (.vint d))
        ∧ ("Wait" = "Move to Position" →
            (∃ xv : Int, ps.find? "x" = some (.vint xv))
            ∧ (∃ yv : Int, ps.find? "y" = some (.vint yv)))
        ∧ (("Wait" = "Type Text" ∨ "Wait" = "Press Key") →
            ∃ s : String, ps.find? "text" = some (.vstr s) ∧ s ≠ "")) :=
  add_action_validates "Wait" "250" "" "" "" []

/-- C10: when the delay field is left empty, the appended item gets the
undocumented default post-action delay of 1000 ms (DEFAULT_ACTION_DELAY_MS);
for a Wait action the resulting duration_ms becomes 1000 ms and delay_ms is
zeroed. -/
theorem add_action_empty_delay_default :
    ∀ (name xText yText textValue : String) (acts : List ActionItem)
      (a : ActionItem) (msg : String),
      add_action name "" xText yText textValue acts = (acts ++ [a], msg) →
      ((name ≠ "Wait" → a.delay_ms = DEFAULT_ACTION_DELAY_MS)
        ∧ (name = "Wait" → a.delay_ms = 0 ∧
            ∃ ps, a.params = .vdict ps
              ∧ ps.find? "duration_ms" = some (.vint DEFAULT_ACTION_DELAY_MS))) := by
  intro name xT yT tv acts a msg h
  unfold add_action at h
  simp only [(by decide : (if pyStrip "" = "" then some DEFAULT_ACTION_DELAY_MS
      else parse_positive_int (pyStrip "")) = some DEFAULT_ACTION_DELAY_MS)] at h
  rcases hpos : add_action_position_params (actionDefinitionFor name)
      (pyStrip xT) (pyStrip yT) with m | posParams
  · exfalso
    simp only [hpos] at h
    have hlen := congrArg (fun p => p.1.length) h
    simp [List.length_append] at hlen
  · simp only [hpos] at h
    rcases htext : add_action_text_params (actionDefinitionFor name)
        (pyStrip tv) with m | textParams
    · exfalso
      simp only [htext] at h
      have hlen := congrArg (fun p => p.1.length) h
      simp [List.length_append] at hlen
    · simp only [htext] at h
      by_cases hw : name = "Wait"
      · subst hw
        rw [if_pos rfl, if_neg (by decide : ¬((DEFAULT_ACTION_DELAY_MS : Int) ≤ 0))] at h
        have h1 := congrArg Prod.fst h
        have h2 : (⟨.vstr "Wait",
            .vdict ((posParams.append textParams).append
              (.fcons "duration_ms" (.vint DEFAULT_ACTION_DELAY_MS) .fnil)),
            0⟩ : ActionItem) = a := by
          simpa using List.append_cancel_left h1
        subst h2
        refine ⟨fun hne => absurd rfl hne, fun _ => ⟨rfl, ?_⟩⟩
        refine ⟨_, rfl, ?_⟩
        rcases position_params_shape hpos with p1 | ⟨xv, yv, p1⟩ <;>
          rcases text_params_shape htext with p2 | ⟨s, hs, p2⟩ <;>
            subst p1 <;> subst p2 <;> simp [PyFields.append, PyFields.find?]
      · rw [if_neg hw] at h
        have h1 := congrArg Prod.fst h
        have h2 : (⟨.vstr name, .vdict (posParams.append textParams),
            DEFAULT_ACTION_DELAY_MS⟩ : ActionItem) = a := by
          simpa using List.append_cancel_left h1
        subst h2
        exact ⟨fun _ => rfl, fun hWait => absurd hWait hw⟩

theorem add_action_empty_delay_default_witness :
    add_action "Left Click" "" "" "" "" [] =
      ([] ++ [⟨.vstr "Left Click", .vdict .fnil, 1000⟩], "Added action Left Click.")
    ∧ ((⟨.vstr "Left Click", .vdict .fnil, 1000⟩ : ActionItem).delay_ms =
        DEFAULT_ACTION_DELAY_MS) :=
  ⟨by decide, (add_action_empty_delay_default "Left Click" "" "" "" []
      ⟨.vstr "Left Click", .vdict .fnil, 1000⟩ "Added action Left Click."
      (by decide)).1 (by decide)⟩
